import Mathlib

/- Verification of the FFmpeg-based playback engine of the summit_hip_numbers
repository (crates/summit_hip_numbers/src/video_player.rs).  The player's
cross-thread shared state is the pair `eos : Arc<AtomicBool>` /
`error : Arc<Mutex<Option<String>>>`; the operations of the controller
(`new`, `stop`, `is_eos`, `get_error`, `Drop::drop`), the thread closures
spawned by `play`, the audio output callback, the frame-rate fallback, the
audio sample conversion, and the pacing computation are embedded shallowly
below and the spec's claims about them are settled as theorems. -/

/-- Identifier for the two decode threads spawned by `play`
(video_player.rs lines 99 and 121). -/
inductive ThreadId
  | video
  | audio
deriving DecidableEq

/-- Observable action on the shared session state or the log: storing the
eos flag (`self.eos.store(true, SeqCst)` / `eos_clone.store(true, SeqCst)`),
overwriting the error slot (`*error.lock().unwrap() = Some(msg)` — note
this is an unconditional overwrite in the source), and the `log::error!` /
`log::warn!` calls (log calls do not touch shared state). -/
inductive Effect
  | storeEos
  | writeError (msg : String)
  | logError (msg : String)
  | logWarn (msg : String)
deriving DecidableEq

/-- The ways one run of `video_playback_loop` (video_player.rs:186-291) can
end.  `openFail` covers the fallible setup steps (input open, decoder
construction, scaler construction, lines 193-208) whose errors propagate via
`?` without touching the error slot; `stoppedByCancel` is an early
`return Ok(())` at a cancellation check (lines 221-224, 234-237);
`sendPacketFail` is the `decoder.send_packet` failure (lines 227-230) which
writes the slot inside the loop and then returns the same message as an
error; `scalerRunFail` is `scaler.run(...)?` in the main loop (line 240)
which propagates without an inner slot write; `senderClosed` is the
`texture_sender.send` failure (lines 248-251), a warn-and-return-Ok path;
`completed` is normal completion including the flush (lines 263-290). -/
inductive VideoLoopOutcome
  | openFail (msg : String)
  | stoppedByCancel
  | sendPacketFail (msg : String)
  | scalerRunFail (msg : String)
  | senderClosed
  | completed
deriving DecidableEq

/-- Shared-state/log effects performed inside `video_playback_loop` for a
given outcome, together with the loop's return value. -/
def videoLoopInner : VideoLoopOutcome → List Effect × Except String Unit
  | .openFail m => ([], .error m)
  | .stoppedByCancel => ([], .ok ())
  | .sendPacketFail m =>
      ([.writeError ("Failed to send packet: " ++ m)],
       .error ("Failed to send packet: " ++ m))
  | .scalerRunFail m => ([], .error m)
  | .senderClosed => ([.logWarn "Failed to send frame to texture channel"], .ok ())
  | .completed => ([], .ok ())

/-- Effects of the whole video thread closure (video_player.rs:99-114): run
the loop; on `Err(e)` log the error, overwrite the error slot with
`e.to_string()`, then store the eos flag; on `Ok` just store the eos flag. -/
def videoThreadBody (o : VideoLoopOutcome) : List Effect :=
  match videoLoopInner o with
  | (effs, .error e) =>
      effs ++ [.logError ("Video playback error: " ++ e), .writeError e, .storeEos]
  | (effs, .ok _) => effs ++ [.storeEos]

/-- The ways one run of `audio_playback_loop` (video_player.rs:293-341) can
end: fallible setup (input open / decoder construction, lines 300-305),
cancellation checks (lines 308-311, 318-320), `decoder.send_packet(&packet)?`
(line 314), a `convert_audio_frame` failure propagated via `?` (lines 322,
336), the sample channel having no receiver (lines 323-325), or normal
completion including the flush (lines 330-338).  The loop's `_error`
parameter is unused and no statement in the loop writes the eos flag or the
error slot. -/
inductive AudioLoopOutcome
  | openFail (msg : String)
  | stoppedByCancel
  | sendPacketFail (msg : String)
  | convertFail (msg : String)
  | channelClosed
  | completed
deriving DecidableEq

/-- Shared-state/log effects performed inside `audio_playback_loop` for a
given outcome, together with the loop's return value: the loop performs no
shared-state effect on any path. -/
def audioLoopInner : AudioLoopOutcome → List Effect × Except String Unit
  | .openFail m => ([], .error m)
  | .stoppedByCancel => ([], .ok ())
  | .sendPacketFail m => ([], .error m)
  | .convertFail m => ([], .error m)
  | .channelClosed => ([], .ok ())
  | .completed => ([], .ok ())

/-- Effects of the whole audio thread closure (video_player.rs:121-131): on
`Err(e)` it only logs; it never writes the error slot and never stores the
eos flag. -/
def audioThreadBody (o : AudioLoopOutcome) : List Effect :=
  match audioLoopInner o with
  | (effs, .error e) => effs ++ [.logError ("Audio playback error: " ++ e)]
  | (effs, .ok _) => effs

/-- The cross-thread shared state of a session: the `eos` atomic boolean and
the mutex-guarded `error` slot (video_player.rs:17-18, 42-43). -/
structure SharedState where
  eos : Bool
  error : Option String
deriving DecidableEq

/-- Shared state at construction (video_player.rs:42-43):
`AtomicBool::new(false)` and `Mutex::new(None)`. -/
def initialShared : SharedState := { eos := false, error := none }

/-- Apply one effect to the shared state. -/
def applyEffect (s : SharedState) : Effect → SharedState
  | .storeEos => { s with eos := true }
  | .writeError m => { s with error := some m }
  | .logError _ => s
  | .logWarn _ => s

/-- Apply a sequence of effects in order. -/
def applyEffects (s : SharedState) (l : List Effect) : SharedState :=
  l.foldl applyEffect s

/-- VideoPlayer::is_eos (video_player.rs:407-409): a single read of the
shared flag. -/
def is_eos (s : SharedState) : Bool := s.eos

/-- VideoPlayer::get_error (video_player.rs:411-413): a single read of the
shared error slot. -/
def get_error (s : SharedState) : Option String := s.error

/-- Effects of VideoPlayer::stop (video_player.rs:401-405): it stores the
eos flag and returns; it does not wait for, join, or otherwise synchronize
with the decode threads. -/
def stopEffects : List Effect := [.storeEos]

/-- Shared-state effects of the Drop impl body (video_player.rs:416-421):
like stop, it only stores the eos flag. -/
def dropSharedEffects : List Effect := [.storeEos]

/-- Session-level events affecting the shared state: a `stop()` call, the
controller being dropped, and the exit of either thread closure (which is
when the closure's effects on the shared state have all been applied). -/
inductive Event
  | stopCall
  | dropCall
  | videoThreadExit (o : VideoLoopOutcome)
  | audioThreadExit (o : AudioLoopOutcome)
deriving DecidableEq

/-- Observable session state: the shared state plus whether each decode
thread has exited its loop. -/
structure SessionObs where
  shared : SharedState
  videoExited : Bool
  audioExited : Bool
deriving DecidableEq

/-- Session state right after `new`/`play`: fresh shared state, both decode
threads still inside their loops. -/
def initialObs : SessionObs :=
  { shared := initialShared, videoExited := false, audioExited := false }

/-- Apply one session event. -/
def stepEvent (s : SessionObs) : Event → SessionObs
  | .stopCall => { s with shared := applyEffects s.shared stopEffects }
  | .dropCall => { s with shared := applyEffects s.shared dropSharedEffects }
  | .videoThreadExit o =>
      { s with shared := applyEffects s.shared (videoThreadBody o), videoExited := true }
  | .audioThreadExit o =>
      { s with shared := applyEffects s.shared (audioThreadBody o), audioExited := true }

/-- Run a session from its initial state through a sequence of events. -/
def runSession (evs : List Event) : SessionObs :=
  evs.foldl stepEvent initialObs

/-- Whether an effect stores the eos flag. -/
def effectStoresEos : Effect → Bool
  | .storeEos => true
  | _ => false

/-- Which events set the eos flag in the source: `stop()` (line 403), the
Drop impl (line 419), and the video thread closure on every exit path
(lines 109 and 112).  The audio thread closure never sets it. -/
def eventSetsEos : Event → Bool
  | .stopCall => true
  | .dropCall => true
  | .videoThreadExit _ => true
  | .audioThreadExit _ => false

lemma applyEffects_eos (l : List Effect) (s : SharedState) :
    (applyEffects s l).eos = (s.eos || l.any effectStoresEos) := by
  induction l generalizing s with
  | nil => simp [applyEffects]
  | cons e t ih =>
      have hstep : applyEffects s (e :: t) = applyEffects (applyEffect s e) t := rfl
      rw [hstep, ih]
      cases e <;> simp [applyEffect, effectStoresEos, Bool.or_assoc]

lemma videoThreadBody_setsEos (o : VideoLoopOutcome) :
    (videoThreadBody o).any effectStoresEos = true := by
  cases o <;> rfl

lemma audioThreadBody_noEos (o : AudioLoopOutcome) :
    (audioThreadBody o).any effectStoresEos = false := by
  cases o <;> rfl

lemma stepEvent_eos (s : SessionObs) (e : Event) :
    (stepEvent s e).shared.eos = (s.shared.eos || eventSetsEos e) := by
  cases e with
  | stopCall => simp [stepEvent, stopEffects, applyEffects_eos, eventSetsEos, effectStoresEos]
  | dropCall => simp [stepEvent, dropSharedEffects, applyEffects_eos, eventSetsEos, effectStoresEos]
  | videoThreadExit o =>
      simp [stepEvent, applyEffects_eos, eventSetsEos, videoThreadBody_setsEos o]
  | audioThreadExit o =>
      simp [stepEvent, applyEffects_eos, eventSetsEos, audioThreadBody_noEos o]

lemma foldl_stepEvent_eos (evs : List Event) (s : SessionObs) :
    (evs.foldl stepEvent s).shared.eos = (s.shared.eos || evs.any eventSetsEos) := by
  induction evs generalizing s with
  | nil => simp
  | cons e t ih =>
      have hstep : (e :: t).foldl stepEvent s = t.foldl stepEvent (stepEvent s e) := rfl
      rw [hstep, ih, stepEvent_eos]
      simp [Bool.or_assoc]

/-- C1 counterexample: in the session whose only event so far is a `stop()`
call, `is_eos()` already returns true although the video decode loop has not
terminated — the claim's "in particular" clause fails because `stop()`
stores the very flag `is_eos()` reads (video_player.rs:403, 408). -/
theorem C1_counterexample :
    is_eos (runSession [Event.stopCall]).shared = true
      ∧ (runSession [Event.stopCall]).videoExited = false :=
  ⟨rfl, rfl⟩

/-- C1 (amended): `is_eos()` reports exactly whether the shared flag has
been set, and the flag is set by the video thread closure's exit (any
outcome), by `stop()`, or by the controller's Drop — so after `stop()` it
reports true immediately, before the video decode loop has terminated. -/
theorem C1_theorem (evs : List Event) :
    is_eos (runSession evs).shared = evs.any eventSetsEos := by
  have h := foldl_stepEvent_eos evs initialObs
  simpa [is_eos, runSession, initialObs, initialShared] using h

/-- Result of one `decoder.receive_frame(&mut decoded)` call inside the
drain loop of `video_playback_loop` (video_player.rs:233): either a frame
was decoded (and is then converted and published), or the call returned an
error — the drain condition `.is_ok()` only distinguishes these two. -/
inductive RecvAttempt
  | ok
  | err (msg : String)
deriving DecidableEq

/-- Shared-state effects of the drain loop
`while decoder.receive_frame(&mut decoded).is_ok() { ... }`
(video_player.rs:233-259) over the sequence of receive results for one
packet: a decoded frame is converted/published/paced with no shared-state
effect, and the first receive error simply makes the `while` condition
false — the drain ends, the error message is discarded, and nothing is
written to the error slot. -/
def drain_frames : List RecvAttempt → List Effect
  | [] => []
  | .ok :: rest => drain_frames rest
  | .err _ :: _ => []

/-- One video-stream packet iteration of `video_playback_loop`
(video_player.rs:226-259): a `send_packet` failure writes the error slot
and exits the loop with the same message as an `Err` (lines 227-230); on a
successful send the frames are drained, and the iteration always completes
with `Ok` — a receive failure never terminates the loop and never reaches
the error slot. -/
def video_packet_step (send : Except String Unit) (recvs : List RecvAttempt) :
    List Effect × Except String Unit :=
  match send with
  | .error e =>
      ([.writeError ("Failed to send packet: " ++ e)],
       .error ("Failed to send packet: " ++ e))
  | .ok _ => (drain_frames recvs, .ok ())

/-- C7 counterexample: a session in which the video loop's only decode
incident is a `receive_frame` failure ("corrupt frame") on a successfully
sent packet, after which the loop runs to natural completion.  The receive
error is swallowed by the `while ... .is_ok()` drain condition
(video_player.rs:233): the packet step produces no effect and no exit, and
at loop completion the error slot still holds None while the eos flag is
set — so a poller observes `get_error()` returning None, contradicting the
claim that a receive failure on the video path is recorded in the slot. -/
theorem C7_counterexample :
    video_packet_step (.ok ()) [.err "corrupt frame"] = ([], .ok ())
      ∧ get_error (applyEffects initialShared
          ((video_packet_step (.ok ()) [.err "corrupt frame"]).1
            ++ videoThreadBody .completed)) = none
      ∧ is_eos (applyEffects initialShared
          ((video_packet_step (.ok ()) [.err "corrupt frame"]).1
            ++ videoThreadBody .completed)) = true :=
  ⟨rfl, rfl, rfl⟩

/-- C7 (amended): of the two decode-call failures on the video path, only a
`send_packet` failure is fatal and reported: it writes the message to the
shared slot, exits the loop with the same message, and the wrapper then
writes the slot again and sets the eos flag, so a poller observes both
`get_error()` returning Some and `is_eos()` returning true.  A
`receive_frame` failure, by contrast, merely ends the current packet's
drain: its message is discarded, no effect reaches the error slot or the
eos flag, and the loop continues with the next packet. -/
theorem C7_theorem (m : String) (s : SharedState) :
    (∀ recvs : List RecvAttempt,
        video_packet_step (.error m) recvs
          = ([.writeError ("Failed to send packet: " ++ m)],
             .error ("Failed to send packet: " ++ m)))
      ∧ get_error (applyEffects s (videoThreadBody (.sendPacketFail m)))
          = some ("Failed to send packet: " ++ m)
      ∧ is_eos (applyEffects s (videoThreadBody (.sendPacketFail m))) = true
      ∧ (∀ recvs : List RecvAttempt, drain_frames recvs = [])
      ∧ (∀ recvs : List RecvAttempt,
          video_packet_step (.ok ()) recvs = ([], .ok ())) := by
  have hdrain : ∀ recvs : List RecvAttempt, drain_frames recvs = [] := by
    intro recvs
    induction recvs with
    | nil => rfl
    | cons a rest ih => cases a <;> simp [drain_frames, ih]
  refine ⟨fun recvs => rfl, rfl, rfl, hdrain, fun recvs => ?_⟩
  rw [video_packet_step, hdrain recvs]

/-- The error message (if any) written by one effect. -/
def effectErrorWrite : Effect → Option String
  | .writeError m => some m
  | _ => none

/-- The sequence of error-slot writes performed by one session event. -/
def eventErrorWrites : Event → List String
  | .stopCall => stopEffects.filterMap effectErrorWrite
  | .dropCall => dropSharedEffects.filterMap effectErrorWrite
  | .videoThreadExit o => (videoThreadBody o).filterMap effectErrorWrite
  | .audioThreadExit o => (audioThreadBody o).filterMap effectErrorWrite

/-- The sequence of error-slot writes performed over a whole session. -/
def traceErrorWrites (evs : List Event) : List String :=
  evs.flatMap eventErrorWrites

/-- Whether an event is the video thread closure's exit. -/
def isVideoExitEvent : Event → Bool
  | .videoThreadExit _ => true
  | _ => false

lemma applyEffects_error (l : List Effect) (s : SharedState) :
    (applyEffects s l).error
      = (l.filterMap effectErrorWrite).foldl (fun _o m => some m) s.error := by
  induction l generalizing s with
  | nil => rfl
  | cons e t ih =>
      have hstep : applyEffects s (e :: t) = applyEffects (applyEffect s e) t := rfl
      rw [hstep, ih]
      cases e <;> simp [applyEffect, effectErrorWrite]

lemma stepEvent_error (s : SessionObs) (e : Event) :
    (stepEvent s e).shared.error
      = (eventErrorWrites e).foldl (fun _o m => some m) s.shared.error := by
  cases e <;> simp [stepEvent, eventErrorWrites, applyEffects_error]

lemma foldl_stepEvent_error (evs : List Event) (s : SessionObs) :
    (evs.foldl stepEvent s).shared.error
      = (traceErrorWrites evs).foldl (fun _o m => some m) s.shared.error := by
  induction evs generalizing s with
  | nil => rfl
  | cons e t ih =>
      have hstep : (e :: t).foldl stepEvent s = t.foldl stepEvent (stepEvent s e) := rfl
      have hsplit : traceErrorWrites (e :: t) = eventErrorWrites e ++ traceErrorWrites t := by
        simp [traceErrorWrites]
      rw [hstep, ih, hsplit, List.foldl_append, stepEvent_error]

lemma eventErrorWrites_nonvideo (e : Event) (h : isVideoExitEvent e = false) :
    eventErrorWrites e = [] := by
  cases e with
  | stopCall => rfl
  | dropCall => rfl
  | videoThreadExit o => simp [isVideoExitEvent] at h
  | audioThreadExit o => cases o <;> rfl

lemma eventErrorWrites_video_const (o : VideoLoopOutcome) :
    ∀ x ∈ eventErrorWrites (.videoThreadExit o),
      ∀ y ∈ eventErrorWrites (.videoThreadExit o), x = y := by
  cases o <;> intro x hx y hy <;>
    simp [eventErrorWrites, videoThreadBody, videoLoopInner, effectErrorWrite,
      List.filterMap] at hx hy <;> simp [hx, hy]

lemma traceErrorWrites_nil_of_novideo (evs : List Event)
    (h : ∀ e ∈ evs, isVideoExitEvent e = false) : traceErrorWrites evs = [] := by
  induction evs with
  | nil => rfl
  | cons e t ih =>
      have hsplit : traceErrorWrites (e :: t) = eventErrorWrites e ++ traceErrorWrites t := by
        simp [traceErrorWrites]
      rw [hsplit, eventErrorWrites_nonvideo e (h e (by simp)),
        ih fun x hx => h x (by simp [hx])]
      rfl

lemma traceErrorWrites_const (evs : List Event)
    (h : evs.countP isVideoExitEvent ≤ 1) :
    ∀ x ∈ traceErrorWrites evs, ∀ y ∈ traceErrorWrites evs, x = y := by
  induction evs with
  | nil => simp [traceErrorWrites]
  | cons e t ih =>
      have hsplit : traceErrorWrites (e :: t) = eventErrorWrites e ++ traceErrorWrites t := by
        simp [traceErrorWrites]
      rw [List.countP_cons] at h
      cases hb : isVideoExitEvent e with
      | true =>
          obtain ⟨o, rfl⟩ : ∃ o, e = .videoThreadExit o := by
            cases e <;> simp [isVideoExitEvent] at hb ⊢
          have ht : ∀ x ∈ t, isVideoExitEvent x = false := by
            rw [hb] at h
            simp at h
            exact h
          rw [hsplit, traceErrorWrites_nil_of_novideo t ht, List.append_nil]
          exact eventErrorWrites_video_const o
      | false =>
          have ht : t.countP isVideoExitEvent ≤ 1 := by
            rw [hb] at h
            simpa using h
          rw [hsplit, eventErrorWrites_nonvideo e hb, List.nil_append]
          exact ih ht

lemma foldl_overwrite_const (t : List String) (a : String) (h : ∀ x ∈ t, x = a) :
    t.foldl (fun _o m => some m) (some a) = some a := by
  induction t with
  | nil => rfl
  | cons b r ih =>
      have hb : b = a := h b (by simp)
      subst hb
      exact ih fun x hx => h x (by simp [hx])

lemma foldl_overwrite_head (l : List String)
    (hconst : ∀ x ∈ l, ∀ y ∈ l, x = y) :
    l.foldl (fun _o m => some m) none = l.head? := by
  cases l with
  | nil => rfl
  | cons a t =>
      have : (a :: t).foldl (fun _o m => some m) none
          = t.foldl (fun _o m => some m) (some a) := rfl
      rw [this]
      have hall : ∀ x ∈ t, x = a := fun x hx =>
        hconst x (by simp [hx]) a (by simp)
      rw [foldl_overwrite_const t a hall]
      rfl

/-- C2: in any session trace in which the video thread closure exits at most
once (as in every real session — the closure runs once), the shared error
slot ends up holding exactly the first error message ever written to it:
although every write in the source is an unconditional overwrite
(video_player.rs:108, 228), all writes of a session carry the same message,
so `get_error()` returns the first fatal error recorded by either loop (the
audio loop records none). -/
theorem C2_theorem (evs : List Event)
    (h : evs.countP isVideoExitEvent ≤ 1) :
    get_error (runSession evs).shared = (traceErrorWrites evs).head? := by
  have h1 := foldl_stepEvent_error evs initialObs
  have h2 := foldl_overwrite_head (traceErrorWrites evs) (traceErrorWrites_const evs h)
  calc get_error (runSession evs).shared
      = (traceErrorWrites evs).foldl (fun _o m => some m) none := by
        simpa [get_error, runSession, initialObs, initialShared] using h1
    _ = (traceErrorWrites evs).head? := h2

/-- Witness for C2 at a concrete session: stop, then the video thread exits
with a send-packet failure. -/
theorem C2_witness :
    ([Event.stopCall, Event.videoThreadExit (.sendPacketFail "boom")].countP
        isVideoExitEvent ≤ 1)
      ∧ get_error (runSession
            [Event.stopCall, Event.videoThreadExit (.sendPacketFail "boom")]).shared
          = (traceErrorWrites
              [Event.stopCall, Event.videoThreadExit (.sendPacketFail "boom")]).head? :=
  ⟨by decide, C2_theorem _ (by decide)⟩

/-- Atomic steps of tearing a VideoPlayer down.  `joinThread` is included so
that its absence from the actual teardown sequence is expressible. -/
inductive TeardownStep
  | setEosFlag
  | joinThread (t : ThreadId)
  | detachThread (t : ThreadId)
  | dropAudioStream
deriving DecidableEq

/-- Teardown sequence of the Drop impl (video_player.rs:416-421): the body
stores `eos = true`; then the fields drop in declaration order.  Dropping an
`Option<std::thread::JoinHandle<()>>` detaches the thread if present (the
standard library's JoinHandle drop never joins), and dropping the
`Option<cpal::Stream>` stops audio hardware callbacks. -/
def dropTeardown (hasVideoThread hasAudioThread hasAudioStream : Bool) :
    List TeardownStep :=
  [.setEosFlag]
    ++ (if hasVideoThread then [.detachThread .video] else [])
    ++ (if hasAudioThread then [.detachThread .audio] else [])
    ++ (if hasAudioStream then [.dropAudioStream] else [])

/-- C3 counterexample: for a session holding both thread handles, the
destructor's teardown sequence sets the flag but contains no join of either
decode thread — the handles are merely dropped, which detaches. -/
theorem C3_counterexample :
    TeardownStep.setEosFlag ∈ dropTeardown true true true
      ∧ TeardownStep.joinThread ThreadId.video ∉ dropTeardown true true true
      ∧ TeardownStep.joinThread ThreadId.audio ∉ dropTeardown true true true := by
  refine ⟨by decide, by decide, by decide⟩

/-- C3 (amended): at session teardown the destructor sets the cancellation
(eos) flag and drops the thread handles, detaching any live decode threads;
it never joins them, so quiescence is not guaranteed at teardown — the
threads exit later, upon observing the flag. -/
theorem C3_theorem (hv ha hs : Bool) :
    TeardownStep.setEosFlag ∈ dropTeardown hv ha hs
      ∧ (∀ t, TeardownStep.joinThread t ∉ dropTeardown hv ha hs)
      ∧ (hv = true → TeardownStep.detachThread .video ∈ dropTeardown hv ha hs)
      ∧ (ha = true → TeardownStep.detachThread .audio ∈ dropTeardown hv ha hs) := by
  cases hv <;> cases ha <;> cases hs <;>
    exact ⟨by decide, fun t => by cases t <;> decide, by decide, by decide⟩

/-- Witness for C3 at the concrete full session (both threads and the audio
stream present). -/
theorem C3_witness :
    TeardownStep.setEosFlag ∈ dropTeardown true true true
      ∧ TeardownStep.detachThread .video ∈ dropTeardown true true true
      ∧ TeardownStep.detachThread .audio ∈ dropTeardown true true true :=
  ⟨(C3_theorem true true true).1, (C3_theorem true true true).2.2.1 rfl,
   (C3_theorem true true true).2.2.2 rfl⟩

/-- A stream's reported average frame rate, as the numerator/denominator
pair returned by `avg_frame_rate()` (an FFmpeg AVRational). -/
structure AVRational where
  numerator : Int
  denominator : Int
deriving DecidableEq

/-- The inter-frame interval chosen by `video_playback_loop`
(video_player.rs:210-215), in seconds, over ℚ: if the reported rate's
numerator is positive, the interval is denominator / numerator seconds
(`Duration::from_secs_f64`); otherwise the fallback is 33 ms
(`Duration::from_millis(33)`). -/
def frame_duration (frame_rate : AVRational) : ℚ :=
  if frame_rate.numerator > 0 then
    (frame_rate.denominator : ℚ) / (frame_rate.numerator : ℚ)
  else
    33 / 1000

/-- C4 counterexample: a reported rate of 30/0 has a zero denominator, yet
the code does not fall back to 33 ms — its guard tests the numerator — and
the computed interval is the zero interval the claim says is avoided. -/
theorem C4_counterexample :
    frame_duration ⟨30, 0⟩ = 0 ∧ frame_duration ⟨30, 0⟩ ≠ 33 / 1000 := by
  constructor <;> norm_num [frame_duration]

/-- C4 (amended): the ~33 ms fallback is keyed on the numerator, not the
denominator: a rate with non-positive numerator (the common 0/1 or 0/0
unknown-rate encodings) falls back to 33 ms, while a rate with positive
numerator always uses denominator/numerator seconds — in particular a zero
denominator with positive numerator yields a zero interval, not the
fallback. -/
theorem C4_theorem (r : AVRational) :
    (r.numerator ≤ 0 → frame_duration r = 33 / 1000)
      ∧ (0 < r.numerator →
          frame_duration r = (r.denominator : ℚ) / (r.numerator : ℚ)) := by
  constructor <;> intro h
  · rw [frame_duration, if_neg (by omega)]
  · rw [frame_duration, if_pos h]

/-- Witness for C4: the unknown rate 0/1 gets the 33 ms fallback, and a
30/1 rate gets 1/30 s. -/
theorem C4_witness :
    frame_duration ⟨0, 1⟩ = 33 / 1000
      ∧ frame_duration ⟨30, 1⟩ = ((1 : Int) : ℚ) / ((30 : Int) : ℚ) :=
  ⟨(C4_theorem ⟨0, 1⟩).1 (by norm_num), (C4_theorem ⟨30, 1⟩).2 (by norm_num)⟩

/-- Audio output setup fallback inside `play` (video_player.rs:78-93): when
`setup_audio_output` fails, the player logs a warning and continues with no
audio stream; the failure neither aborts `play` nor touches shared state. -/
def play_audio_setup : Except String Unit → Option Unit × List Effect
  | .ok _ => (some (), [])
  | .error e =>
      (none,
       [.logWarn ("Failed to setup audio output: " ++ e ++ ", continuing without audio")])

/-- C6: no audio-path failure ever stores the eos flag or writes the error
slot: the audio thread closure's effects contain neither, for every possible
outcome of the audio decode loop (including device/decode errors), and the
audio-device setup fallback only logs a warning; consequently `is_eos()` and
`get_error()` are unchanged by the audio thread's exit, whatever it was. -/
theorem C6_theorem :
    (∀ o : AudioLoopOutcome,
        Effect.storeEos ∉ audioThreadBody o
          ∧ ∀ m, Effect.writeError m ∉ audioThreadBody o)
      ∧ (∀ r : Except String Unit,
          Effect.storeEos ∉ (play_audio_setup r).2
            ∧ ∀ m, Effect.writeError m ∉ (play_audio_setup r).2)
      ∧ (∀ (o : AudioLoopOutcome) (s : SharedState),
          is_eos (applyEffects s (audioThreadBody o)) = is_eos s
            ∧ get_error (applyEffects s (audioThreadBody o)) = get_error s) := by
  refine ⟨fun o => ⟨?_, fun m => ?_⟩, fun r => ⟨?_, fun m => ?_⟩, fun o s => ⟨?_, ?_⟩⟩
  · cases o <;> simp [audioThreadBody, audioLoopInner]
  · cases o <;> simp [audioThreadBody, audioLoopInner]
  · cases r <;> simp [play_audio_setup]
  · cases r <;> simp [play_audio_setup]
  · cases o <;> rfl
  · cases o <;> rfl

/-- One invocation of the cpal output callback built at
video_player.rs:162-179, acting on the hardware slice `data` and the shared
sample buffer: `len = data.len().min(buffer.len())`; if positive, copy
`buffer[..len]` into `data[..len]`, drain those samples, and zero-fill
`data[len..]` when short; otherwise zero the whole slice.  Returns the slice
contents after the callback and the buffer after draining. -/
def audio_output_callback (data buffer : List ℚ) : List ℚ × List ℚ :=
  let len := min data.length buffer.length
  if 0 < len then
    let data1 := buffer.take len ++ data.drop len
    let buffer1 := buffer.drop len
    if len < data.length then
      (data1.take len ++ (data1.drop len).map (fun _ => 0), buffer1)
    else
      (data1, buffer1)
  else
    (data.map (fun _ => 0), buffer)

lemma map_zero_eq_replicate (l : List ℚ) :
    (l.map fun _ => (0 : ℚ)) = List.replicate l.length 0 := by
  induction l with
  | nil => rfl
  | cons a t ih => simp [ih, List.replicate_succ]

/-- C5: on every callback invocation with n requested samples and k
buffered, the output slice has length n, its first min(n,k) samples are
exactly the oldest min(n,k) buffered samples in FIFO order, every remaining
position is zero, and exactly those min(n,k) samples are removed from the
buffer — the callback never reads past what is buffered. -/
theorem C5_theorem (data buffer : List ℚ) :
    ((audio_output_callback data buffer).1.length = data.length)
      ∧ ((audio_output_callback data buffer).1.take (min data.length buffer.length)
          = buffer.take (min data.length buffer.length))
      ∧ ((audio_output_callback data buffer).1.drop (min data.length buffer.length)
          = List.replicate (data.length - min data.length buffer.length) 0)
      ∧ ((audio_output_callback data buffer).2
          = buffer.drop (min data.length buffer.length)) := by
  set n := data.length with hn
  set k := buffer.length with hk
  have hlen_take : (buffer.take (min n k)).length = min n k := by
    rw [List.length_take, ← hk]
    omega
  by_cases hpos : 0 < min n k
  · have hle_n : min n k ≤ n := Nat.min_le_left n k
    by_cases hshort : min n k < n
    · have hcall : audio_output_callback data buffer
          = ((buffer.take (min n k) ++ data.drop (min n k)).take (min n k)
              ++ ((buffer.take (min n k) ++ data.drop (min n k)).drop (min n k)).map
                  (fun _ => 0),
             buffer.drop (min n k)) := by
        rw [audio_output_callback]
        simp only [← hn, ← hk, if_pos hpos, if_pos hshort]
      have htake : (buffer.take (min n k) ++ data.drop (min n k)).take (min n k)
          = buffer.take (min n k) := List.take_left' hlen_take
      have hdrop : (buffer.take (min n k) ++ data.drop (min n k)).drop (min n k)
          = data.drop (min n k) := List.drop_left' hlen_take
      rw [hcall, htake, hdrop, map_zero_eq_replicate]
      have hdroplen : (data.drop (min n k)).length = n - min n k := by
        rw [List.length_drop, ← hn]
      rw [hdroplen]
      refine ⟨?_, ?_, ?_, rfl⟩
      · simp [hlen_take]
      · exact List.take_left' hlen_take
      · exact List.drop_left' hlen_take
    · have heq : min n k = n := by omega
      have hcall : audio_output_callback data buffer
          = (buffer.take (min n k) ++ data.drop (min n k), buffer.drop (min n k)) := by
        rw [audio_output_callback]
        simp only [← hn, ← hk, if_pos hpos, if_neg hshort]
      have hnil : data.drop (min n k) = [] := by
        rw [heq, hn]
        exact List.drop_length data
      rw [hcall, hnil, List.append_nil]
      refine ⟨?_, ?_, ?_, rfl⟩
      · rw [hlen_take, heq]
      · rw [List.take_take, min_self]
      · rw [heq]
        simp only [Nat.sub_self, List.replicate_zero]
        exact List.drop_eq_nil_of_le (by rw [List.length_take]; omega)
  · have hz : min n k = 0 := by omega
    have hcall : audio_output_callback data buffer
        = (data.map fun _ => (0 : ℚ), buffer) := by
      rw [audio_output_callback]
      simp only [← hn, ← hk, if_neg hpos]
    rw [hcall, map_zero_eq_replicate, hz]
    refine ⟨by simp [← hn], by simp, by simp [← hn], by simp⟩

/-- Rust's `str::trim_start_matches` over character lists: repeatedly strip
a leading occurrence of the (non-empty) pattern; the prefix test is written
as take-length equality. -/
def trim_start_matches (s pat : List Char) : List Char :=
  if hp : pat = [] then s
  else if hpre : s.take pat.length = pat then
    trim_start_matches (s.drop pat.length) pat
  else s
termination_by s.length
decreasing_by
  have hplen : 0 < pat.length := List.length_pos.mpr hp
  have hle : pat.length ≤ s.length := by
    have := congrArg List.length hpre
    rw [List.length_take] at this
    omega
  rw [List.length_drop]
  omega

/-- URI resolution in VideoPlayer::new (video_player.rs:30-34): a
`file://`-prefixed URI has all leading `file://` occurrences stripped
(`trim_start_matches`); a bare path is used as is. -/
def resolve_video_path (uri : String) : String :=
  if uri.toList.take "file://".toList.length = "file://".toList then
    ⟨trim_start_matches uri.toList "file://".toList⟩
  else uri

/-- The VideoPlayer struct (video_player.rs:16-24) as constructed: it holds
the shared flags, the resolved path, the optional thread handles and the
optional audio stream handle — and no decoder or container state at all
(decoder/scaler/demux contexts are locals of the loop functions). -/
structure VideoPlayer where
  eos : Bool
  error : Option String
  video_path : String
  video_thread : Option ThreadId
  audio_thread : Option ThreadId
  audio_stream : Bool
deriving DecidableEq

/-- VideoPlayer::new (video_player.rs:27-56): initialize FFmpeg (failure is
propagated), resolve the URI to a local path, fail with "Video file not
found: <path>" if the path does not exist, and otherwise return a player
with fresh shared state and no threads, no audio stream, and no
decoder/container state.  The filesystem is passed in as the predicate
`fsExists` (`Path::new(&video_path).exists()`). -/
def VideoPlayer.new (ffmpegInit : Except String Unit) (fsExists : String → Bool)
    (uri : String) : Except String VideoPlayer :=
  match ffmpegInit with
  | .error e => .error ("Failed to initialize FFmpeg: " ++ e)
  | .ok _ =>
      let video_path := resolve_video_path uri
      if fsExists video_path = false then
        .error ("Video file not found: " ++ video_path)
      else
        .ok { eos := false, error := none, video_path := video_path,
              video_thread := none, audio_thread := none, audio_stream := false }

/-- C8: with FFmpeg initialization succeeding, for every uri whose resolved
local path does not exist, `new` returns the "Video file not found" error —
whose text contains "not found" — and returns no player (so no threads are
spawned and nothing is opened); for an existing path, `new` succeeds and the
returned player holds no thread handles, no audio stream, and (by the shape
of the struct) no decoder or container state. -/
theorem C8_theorem (fsExists : String → Bool) (uri : String) :
    (fsExists (resolve_video_path uri) = false →
        VideoPlayer.new (.ok ()) fsExists uri
            = .error ("Video file not found: " ++ resolve_video_path uri)
          ∧ ∃ pre post : List Char,
              ("Video file not found: " ++ resolve_video_path uri).toList
                = pre ++ "not found".toList ++ post)
      ∧ (fsExists (resolve_video_path uri) = true →
          VideoPlayer.new (.ok ()) fsExists uri
              = .ok { eos := false, error := none,
                      video_path := resolve_video_path uri,
                      video_thread := none, audio_thread := none,
                      audio_stream := false }) := by
  constructor <;> intro h
  · refine ⟨by simp [VideoPlayer.new, h], "Video file ".toList,
      ": ".toList ++ (resolve_video_path uri).toList, ?_⟩
    have hsplit : ("Video file not found: " : String).toList
        = "Video file ".toList ++ "not found".toList ++ ": ".toList := by decide
    calc ("Video file not found: " ++ resolve_video_path uri).toList
        = ("Video file not found: " : String).toList
            ++ (resolve_video_path uri).toList := String.data_append _ _
      _ = "Video file ".toList ++ "not found".toList
            ++ (": ".toList ++ (resolve_video_path uri).toList) := by
          rw [hsplit]; simp
  · simp [VideoPlayer.new, h]

/-- FFmpeg sample layout: packed (interleaved in plane 0) or planar (one
plane per channel). -/
inductive SampleType
  | packed
  | planar
deriving DecidableEq

/-- The decoded frame's sample data as `convert_audio_frame` inspects it:
32-bit float planes, 16-bit signed integer planes, or any other sample
format (F64, I32, U8, ...), which the function rejects.  A plane is read as
a function from plane index and element index to the stored value. -/
inductive FrameData
  | F32 (t : SampleType) (plane : Nat → Nat → ℚ)
  | I16 (t : SampleType) (plane : Nat → Nat → Int)
  | unsupported (fmtName : String)

/-- A decoded audio frame: channel count, samples per channel, and data. -/
structure AudioFrame where
  channels : Nat
  samples : Nat
  data : FrameData

/-- VideoPlayer::convert_audio_frame (video_player.rs:343-399): packed f32
is copied through (plane 0 read as samples*channels consecutive floats);
planar f32 is interleaved sample-major (for each sample index, push each
channel's value); packed/planar i16 likewise with each value divided by
32768.0; any other sample format is rejected with "Unsupported audio
format". -/
def convert_audio_frame (frame : AudioFrame) : Except String (List ℚ) :=
  match frame.data with
  | .F32 .packed p =>
      .ok ((List.range (frame.samples * frame.channels)).map fun j => p 0 j)
  | .F32 .planar p =>
      .ok ((List.range frame.samples).flatMap fun i =>
        (List.range frame.channels).map fun ch => p ch i)
  | .I16 .packed p =>
      .ok ((List.range (frame.samples * frame.channels)).map fun j =>
        (p 0 j : ℚ) / 32768)
  | .I16 .planar p =>
      .ok ((List.range frame.samples).flatMap fun i =>
        (List.range frame.channels).map fun ch => (p ch i : ℚ) / 32768)
  | .unsupported n => .error ("Unsupported audio format: " ++ n)

lemma interleave_length (sm ch : Nat) (g : Nat → Nat → ℚ) :
    ((List.range sm).flatMap fun i => (List.range ch).map fun c => g i c).length
      = sm * ch := by
  induction sm with
  | zero => simp
  | succ n ih =>
      rw [List.range_succ, List.flatMap_append, List.length_append, ih]
      simp [Nat.succ_mul]

lemma interleave_getD (sm ch : Nat) (g : Nat → Nat → ℚ) (i c : Nat)
    (hi : i < sm) (hc : c < ch) :
    ((List.range sm).flatMap fun i => (List.range ch).map fun c => g i c).getD
        (i * ch + c) 0 = g i c := by
  induction sm with
  | zero => omega
  | succ n ih =>
      rw [List.range_succ, List.flatMap_append]
      by_cases hlast : i < n
      · have hidx : i * ch + c < ((List.range n).flatMap fun i =>
            (List.range ch).map fun c => g i c).length := by
          rw [interleave_length]
          have h1 : i * ch + ch ≤ n * ch := by
            have : i + 1 ≤ n := hlast
            calc i * ch + ch = (i + 1) * ch := by ring
              _ ≤ n * ch := Nat.mul_le_mul_right ch this
          omega
        rw [List.getD_eq_getElem?_getD, List.getElem?_append_left hidx,
          ← List.getD_eq_getElem?_getD]
        exact ih hlast
      · have hieq : i = n := by omega
        subst hieq
        have hlen : ((List.range i).flatMap fun i =>
            (List.range ch).map fun c => g i c).length = i * ch :=
          interleave_length i ch g
        rw [List.getD_eq_getElem?_getD, List.getElem?_append_right (by omega), hlen]
        have hsub : i * ch + c - i * ch = c := by omega
        rw [hsub]
        simp [List.getElem?_map, List.getElem?_range hc]

/-- C9 counterexample: a frame in an unsupported sample format (here U8) is
rejected with an error — `convert_audio_frame` does not return normalized
samples "regardless of source sample format". -/
theorem C9_counterexample :
    convert_audio_frame ⟨2, 4, .unsupported "U8"⟩
        = .error "Unsupported audio format: U8"
      ∧ ¬ ∃ out : List ℚ,
          convert_audio_frame ⟨2, 4, .unsupported "U8"⟩ = .ok out := by
  constructor
  · rfl
  · rintro ⟨out, h⟩
    simp [convert_audio_frame] at h

/-- C9 (amended): for frames in the two supported formats the conversion
returns interleaved 32-bit float samples of length samples*channels —
packed f32 passed through, planar f32 interleaved into packed order, i16
rescaled by 32768 (packed and planar) — while every other sample format is
rejected with an "Unsupported audio format" error. -/
theorem C9_theorem :
    (∀ (ch sm : Nat) (p : Nat → Nat → ℚ),
        ∃ L, convert_audio_frame ⟨ch, sm, .F32 .packed p⟩ = .ok L
          ∧ L.length = sm * ch
          ∧ ∀ j, j < sm * ch → L.getD j 0 = p 0 j)
      ∧ (∀ (ch sm : Nat) (p : Nat → Nat → ℚ),
          ∃ L, convert_audio_frame ⟨ch, sm, .F32 .planar p⟩ = .ok L
            ∧ L.length = sm * ch
            ∧ ∀ i c, i < sm → c < ch → L.getD (i * ch + c) 0 = p c i)
      ∧ (∀ (ch sm : Nat) (p : Nat → Nat → Int),
          ∃ L, convert_audio_frame ⟨ch, sm, .I16 .packed p⟩ = .ok L
            ∧ L.length = sm * ch
            ∧ ∀ j, j < sm * ch → L.getD j 0 = (p 0 j : ℚ) / 32768)
      ∧ (∀ (ch sm : Nat) (p : Nat → Nat → Int),
          ∃ L, convert_audio_frame ⟨ch, sm, .I16 .planar p⟩ = .ok L
            ∧ L.length = sm * ch
            ∧ ∀ i c, i < sm → c < ch → L.getD (i * ch + c) 0 = (p c i : ℚ) / 32768)
      ∧ (∀ (ch sm : Nat) (n : String),
          convert_audio_frame ⟨ch, sm, .unsupported n⟩
            = .error ("Unsupported audio format: " ++ n)) := by
  refine ⟨fun ch sm p => ⟨_, rfl, by simp, fun j hj => ?_⟩,
    fun ch sm p => ⟨_, rfl, interleave_length sm ch _,
      fun i c hi hc => interleave_getD sm ch (fun i c => p c i) i c hi hc⟩,
    fun ch sm p => ⟨_, rfl, by simp, fun j hj => ?_⟩,
    fun ch sm p => ⟨_, rfl, interleave_length sm ch _,
      fun i c hi hc => interleave_getD sm ch (fun i c => (p c i : ℚ) / 32768) i c hi hc⟩,
    fun ch sm n => rfl⟩
  · rw [List.getD_eq_getElem?_getD, List.getElem?_map, List.getElem?_range hj]
    rfl
  · rw [List.getD_eq_getElem?_getD, List.getElem?_map, List.getElem?_range hj]
    rfl

/-- Witness for C9 at a concrete planar f32 frame (2 channels, 1 sample)
and a concrete packed i16 frame. -/
theorem C9_witness :
    (∃ L, convert_audio_frame ⟨2, 1, .F32 .planar fun c _ => (c : ℚ)⟩ = .ok L
        ∧ L.length = 1 * 2 ∧ L.getD (0 * 2 + 1) 0 = ((1 : Nat) : ℚ))
      ∧ (∃ L, convert_audio_frame ⟨1, 1, .I16 .packed fun _ _ => (16384 : Int)⟩
            = .ok L
          ∧ L.length = 1 * 1 ∧ L.getD 0 0 = ((16384 : Int) : ℚ) / 32768) := by
  constructor
  · obtain ⟨L, h1, h2, h3⟩ := C9_theorem.2.1 2 1 (fun c _ => (c : ℚ))
    exact ⟨L, h1, h2, h3 0 1 (by omega) (by omega)⟩
  · obtain ⟨L, h1, h2, h3⟩ := C9_theorem.2.2.1 1 1 (fun _ _ => (16384 : Int))
    exact ⟨L, h1, h2, h3 0 (by omega)⟩

/-- The pacing step after publishing a frame (video_player.rs:253-258 and
the identical flush-path copy at 281-286), over rational wall-clock seconds:
`expected_time = start_time + frame_duration * frame_count as u32` (the u64
frame count is truncated to 32 bits by the cast) and the thread sleeps
`expected_time - now` only when `expected_time > now`.  Returns the slept
duration, or none when the sleep is skipped. -/
def pacing_sleep (start_time frame_duration : ℚ) (frame_count : Nat)
    (now : ℚ) : Option ℚ :=
  let expected_time := start_time + frame_duration * ((frame_count % 2 ^ 32 : Nat) : ℚ)
  if now < expected_time then some (expected_time - now) else none

/-- C10 counterexample: after publishing frame number 2^32 with a one-second
frame interval starting at time 0, the claimed deadline start + k * interval
= 2^32 has not passed at now = 0, yet the code skips the sleep entirely (the
`as u32` cast truncates the frame count to 0), so the loop does not sleep
until start + k * interval. -/
theorem C10_counterexample :
    pacing_sleep 0 1 (2 ^ 32) 0 = none
      ∧ (0 : ℚ) < 0 + 1 * ((2 ^ 32 : Nat) : ℚ) := by
  constructor
  · rw [pacing_sleep]
    norm_num
  · norm_num

/-- C10 (amended): the pacing target is start + interval * (k mod 2^32)
because of the `as u32` cast; whenever a sleep happens its duration is
positive and wakes exactly at that target, the sleep is skipped exactly when
that target has already passed, and for k < 2^32 the target coincides with
the claimed start + k * interval — so no negative duration is ever slept and
no inter-publication gap is negative. -/
theorem C10_theorem (start_time frame_duration : ℚ) (frame_count : Nat) (now : ℚ) :
    (∀ d, pacing_sleep start_time frame_duration frame_count now = some d →
        0 < d ∧ now + d
          = start_time + frame_duration * ((frame_count % 2 ^ 32 : Nat) : ℚ))
      ∧ (start_time + frame_duration * ((frame_count % 2 ^ 32 : Nat) : ℚ) ≤ now →
          pacing_sleep start_time frame_duration frame_count now = none)
      ∧ (frame_count < 2 ^ 32 →
          start_time + frame_duration * ((frame_count % 2 ^ 32 : Nat) : ℚ)
            = start_time + frame_duration * (frame_count : ℚ)) := by
  refine ⟨fun d hd => ?_, fun hle => ?_, fun hlt => ?_⟩
  · rw [pacing_sleep] at hd
    by_cases hcmp : now < start_time
        + frame_duration * ((frame_count % 2 ^ 32 : Nat) : ℚ)
    · rw [if_pos hcmp] at hd
      have : start_time + frame_duration * ((frame_count % 2 ^ 32 : Nat) : ℚ) - now
          = d := by
        injection hd
      constructor
      · rw [← this]
        linarith
      · rw [← this]
        ring
    · rw [if_neg hcmp] at hd
      exact absurd hd (by simp)
  · rw [pacing_sleep, if_neg (by linarith)]
  · rw [Nat.mod_eq_of_lt hlt]

/-- Witness for C10 at concrete inputs: frame 1 at a 30 fps interval,
queried at time 0, sleeps exactly 1/30 s. -/
theorem C10_witness :
    (pacing_sleep 0 (1 / 30) 1 0 = some (1 / 30 - 0)
        ∧ 0 < (1 / 30 - 0 : ℚ)
        ∧ (0 : ℚ) + (1 / 30 - 0) = 0 + 1 / 30 * (((1 % 2 ^ 32 : Nat)) : ℚ))
      ∧ pacing_sleep 0 (1 / 30) (2 ^ 32) (2 ^ 32) = none
      ∧ (0 : ℚ) + 1 / 30 * (((3 % 2 ^ 32 : Nat)) : ℚ) = 0 + 1 / 30 * ((3 : Nat) : ℚ) := by
  have hsome : pacing_sleep 0 (1 / 30) 1 0 = some (1 / 30 - 0) := by
    rw [pacing_sleep]
    norm_num
  refine ⟨⟨hsome, ?_, ?_⟩, ?_, ?_⟩
  · exact ((C10_theorem 0 (1 / 30) 1 0).1 _ hsome).1
  · have h := ((C10_theorem 0 (1 / 30) 1 0).1 _ hsome).2
    simpa using h
  · refine (C10_theorem 0 (1 / 30) (2 ^ 32) (2 ^ 32)).2.1 ?_
    norm_num
  · exact (C10_theorem 0 (1 / 30) 3 0).2.2 (by norm_num)

/-- Witness for C8 at the concrete missing path of the spec's scenario and
at the same path on a filesystem where it exists. -/
theorem C8_witness :
    VideoPlayer.new (.ok ()) (fun _ => false) "/no/such/file.mp4"
        = .error ("Video file not found: " ++ resolve_video_path "/no/such/file.mp4")
      ∧ VideoPlayer.new (.ok ()) (fun _ => true) "/no/such/file.mp4"
        = .ok { eos := false, error := none,
                video_path := resolve_video_path "/no/such/file.mp4",
                video_thread := none, audio_thread := none,
                audio_stream := false } :=
  ⟨((C8_theorem (fun _ => false) "/no/such/file.mp4").1 rfl).1,
   (C8_theorem (fun _ => true) "/no/such/file.mp4").2 rfl⟩
